import Mathlib

/-!
# Verification of the adjuftments reconciliation and balance engine

Shallow embedding of the core functions of the `adjuftments` repository:
the expense categorizer (`adjuftments/utils/parsing_utils.py` and
`adjuftments_v2/dashboard.py`), the Splitwise transaction-balance derivation
(`adjuftments_v2/splitwise_connection.py`), the account balance cascade
(`adjuftments/dashboard.py`), and the reconciliation engine
(`adjuftments/adjuftments.py`).  Amounts are modelled as rationals,
timestamps as naturals, and the spreadsheet / internal store as lists of rows.
-/

namespace Adjuftments

/-! ## Categorizer

`transaction.split("-")`, `.strip()` and `.upper()` are modelled at the
character-list level so that all functions evaluate inside the kernel. -/

/-- Python `s.split("-")`: split a character list at every `'-'`. -/
def splitOnHyphen : List Char → List (List Char)
  | [] => [[]]
  | c :: rest =>
    let r := splitOnHyphen rest
    if c = '-' then [] :: r
    else
      match r with
      | g :: gs => (c :: g) :: gs
      | [] => [[c]]

/-- Python `str.strip()` whitespace set (space, tab, newline, carriage
return, vertical tab, form feed). -/
def isPySpace (c : Char) : Bool := c ∈ [' ', '\t', '\n', '\r', '\x0b', '\x0c']

/-- Python `s.strip()`: drop leading and trailing whitespace. -/
def trimChars (l : List Char) : List Char :=
  ((l.dropWhile isPySpace).reverse.dropWhile isPySpace).reverse

/-- Python `s.upper()` on one ASCII character. -/
def upperChar (c : Char) : Char :=
  if 'a' ≤ c ∧ c ≤ 'z' then Char.ofNat (c.toNat - 32) else c

/-- `transaction.split("-")[0].strip().upper() == "REIMBURSEMENT"`: the text
before the first `-` of the transaction string, trimmed and upper-cased,
equals `REIMBURSEMENT`.  Shared verbatim by both categorizer
implementations. -/
def isReimbursement (transaction : String) : Bool :=
  (trimChars ((splitOnHyphen transaction.toList).headD [])).map upperChar
    == "REIMBURSEMENT".toList

/-- `AdjuftmentsEncoder.categorize_expenses` from
`adjuftments/utils/parsing_utils.py` (the classifier used by the
`adjuftments/dashboard.py` balance cascade and budget rollups). -/
def categorize_expenses (category transaction : String) : String :=
  if isReimbursement transaction then "Reimbursement"
  else if category ∈ ["Rent", "Mortgage", "Housing"] then "Housing"
  else if category ∈ ["Savings", "Savings Spend"] then "Savings"
  else if category ∈ ["Income", "Interest"] then "Income"
  else if category = "Adjustment" then "Adjustment"
  else "Expense"

/-- `Dashboard._categorize_expenses` from `adjuftments_v2/dashboard.py`
(the classifier used by the v2 dashboard).  Its Housing branch tests
`category in ["Rent", "Mortgage"]` only. -/
def dashboardCategorizeExpenses (category transaction : String) : String :=
  if isReimbursement transaction then "Reimbursement"
  else if category ∈ ["Rent", "Mortgage"] then "Housing"
  else if category ∈ ["Savings", "Savings Spend"] then "Savings"
  else if category ∈ ["Income", "Interest"] then "Income"
  else if category = "Adjustment" then "Adjustment"
  else "Expense"

/-- The six semantic expense types. -/
def expenseTypes : List String :=
  ["Reimbursement", "Housing", "Savings", "Income", "Adjustment", "Expense"]

/-- C2 counterexample: the two classifiers in the source disagree.  On
category `Housing` (with a non-reimbursement transaction text)
`categorize_expenses` returns `Housing` while the v2
`Dashboard._categorize_expenses` returns `Expense`, because the latter's
Housing branch only matches `Rent` and `Mortgage`.  This refutes the claim
that the two call-site classifiers agree on every input. -/
theorem claim_C2_counterexample :
    categorize_expenses "Housing" "groceries" = "Housing" ∧
    dashboardCategorizeExpenses "Housing" "groceries" = "Expense" ∧
    categorize_expenses "Housing" "groceries" ≠
      dashboardCategorizeExpenses "Housing" "groceries" :=
  ⟨by decide, by decide, by decide⟩

/-- C2 (amended): `categorize_expenses` returns exactly one of the six
expense types by first-match (Reimbursement on a `REIMBURSEMENT` text prefix;
Housing for Rent/Mortgage/Housing; Savings for Savings/Savings Spend; Income
for Income/Interest; Adjustment for Adjustment; otherwise Expense), and the
two call-site classifiers agree on every input whose category is not
`Housing`; on category `Housing` with a non-reimbursement text,
`categorize_expenses` yields `Housing` while the v2 dashboard classifier
yields `Expense`. -/
theorem claim_C2 (category transaction : String) :
    categorize_expenses category transaction ∈ expenseTypes ∧
    dashboardCategorizeExpenses category transaction ∈ expenseTypes ∧
    (isReimbursement transaction = true →
      categorize_expenses category transaction = "Reimbursement") ∧
    (isReimbursement transaction = false →
      category ∈ ["Rent", "Mortgage", "Housing"] →
      categorize_expenses category transaction = "Housing") ∧
    (isReimbursement transaction = false →
      category ∈ ["Savings", "Savings Spend"] →
      categorize_expenses category transaction = "Savings") ∧
    (isReimbursement transaction = false →
      category ∈ ["Income", "Interest"] →
      categorize_expenses category transaction = "Income") ∧
    (isReimbursement transaction = false → category = "Adjustment" →
      categorize_expenses category transaction = "Adjustment") ∧
    (isReimbursement transaction = false →
      category ∉ ["Rent", "Mortgage", "Housing", "Savings", "Savings Spend",
        "Income", "Interest", "Adjustment"] →
      categorize_expenses category transaction = "Expense") ∧
    (category ≠ "Housing" →
      categorize_expenses category transaction =
        dashboardCategorizeExpenses category transaction) ∧
    (category = "Housing" → isReimbursement transaction = false →
      categorize_expenses category transaction = "Housing" ∧
      dashboardCategorizeExpenses category transaction = "Expense") := by
  unfold categorize_expenses dashboardCategorizeExpenses expenseTypes
  split_ifs <;> simp_all <;> casesm* _ ∨ _ <;> subst_vars <;> simp_all

/-- C2 witness: the amended agreement conjunct applied at a concrete
non-Housing input. -/
theorem claim_C2_witness :
    ("Rent" : String) ≠ "Housing" ∧
    categorize_expenses "Rent" "weekly rent" =
      dashboardCategorizeExpenses "Rent" "weekly rent" :=
  ⟨by decide, (claim_C2 "Rent" "weekly rent").2.2.2.2.2.2.2.2.1 (by decide)⟩

/-! ## Splitwise transaction balances
(`adjuftments_v2/splitwise_connection.py`) -/

namespace Splitwise

/-- Floor of a rational, computed on numerator and denominator. -/
def ratFloor (q : ℚ) : ℤ := q.num.fdiv q.den

/-- Round a rational to the nearest integer, ties to even: the behavior of
Python `round` on exact decimal inputs (binary floating-point representation
error is out of scope of this model). -/
def roundHalfEven (q : ℚ) : ℤ :=
  let f := ratFloor q
  let frac := q - (f : ℚ)
  if frac < 1/2 then f
  else if 1/2 < frac then f + 1
  else if f % 2 = 0 then f else f + 1

/-- Python `round(q, 2)`. -/
def round2 (q : ℚ) : ℚ := (roundHalfEven (q * 100) : ℚ) / 100

/-- One entry of `expense.repayments`. -/
structure Repayment where
  fromUser : ℤ
  toUser : ℤ
  amount : ℚ
deriving DecidableEq, Repr

/-- One entry of `expense.users`. -/
structure SwUser where
  id : ℤ
deriving DecidableEq, Repr

/-- The fields of a Splitwise `Expense` consumed by
`Splitwise._get_transaction_balance`. -/
structure SwExpense where
  cost : ℚ
  payment : Bool
  repayments : List Repayment
  users : List SwUser
deriving DecidableEq, Repr

/-- Outcome of `Splitwise._get_transaction_balance`: a derived balance, a
discarded record (Python returns `None`), or a raised exception
(`SplitwiseException`, `AssertionError`, `IndexError` or
`UnboundLocalError`). -/
inductive BalanceResult where
  | ok (balance : ℚ)
  | discard
  | error
deriving DecidableEq, Repr

/-- `Splitwise._get_transaction_balance`
(`adjuftments_v2/splitwise_connection.py` lines 101-142).  The final
`round(transaction_balance, 2)` is applied inside every returning branch.
The last branch of the single-repayment case models the `UnboundLocalError`
raised when no branch of the Python `if`/`elif` chain assigns
`transaction_balance`. -/
def getTransactionBalance (personalId financialPartner : ℤ)
    (e : SwExpense) : BalanceResult :=
  match e.repayments with
  | [repayment] =>
    if repayment.toUser = personalId ∧ repayment.fromUser = financialPartner ∧
        e.payment = false then
      .ok (round2 (e.cost - repayment.amount))
    else if repayment.fromUser = personalId ∧ repayment.toUser = financialPartner ∧
        e.payment = false then
      .ok (round2 repayment.amount)
    else if financialPartner ∉ e.users.map SwUser.id then
      .discard
    else if e.payment = true then
      .ok (round2 0)
    else
      .error
  | [] =>
    match e.users with
    | u :: _ => if u.id = personalId then .ok (round2 (-e.cost)) else .error
    | [] => .error
  | _ => .error

/-- `Splitwise.get_expenses` restricted to balance derivation: records whose
balance is `None` are skipped, a raised exception propagates and aborts the
whole fetch, and every fetched record carries its derived balance. -/
def getExpenses (personalId financialPartner : ℤ) :
    List SwExpense → Except Unit (List (SwExpense × ℚ))
  | [] => .ok []
  | e :: rest =>
    match getTransactionBalance personalId financialPartner e with
    | .error => .error ()
    | .discard => getExpenses personalId financialPartner rest
    | .ok b =>
      match getExpenses personalId financialPartner rest with
      | .error _ => .error ()
      | .ok tail => .ok ((e, b) :: tail)

/-- Reduction of `getTransactionBalance` for a single-repayment expense. -/
theorem getTransactionBalance_single (p fp : ℤ) (cost : ℚ) (payment : Bool)
    (r : Repayment) (users : List SwUser) :
    getTransactionBalance p fp ⟨cost, payment, [r], users⟩ =
      (if r.toUser = p ∧ r.fromUser = fp ∧ payment = false then
        .ok (round2 (cost - r.amount))
      else if r.fromUser = p ∧ r.toUser = fp ∧ payment = false then
        .ok (round2 r.amount)
      else if fp ∉ users.map SwUser.id then .discard
      else if payment = true then .ok (round2 0)
      else .error) := rfl

/-- Reduction of `getTransactionBalance` for a zero-repayment expense with at
least one user. -/
theorem getTransactionBalance_nil_cons (p fp : ℤ) (cost : ℚ) (payment : Bool)
    (u : SwUser) (urest : List SwUser) :
    getTransactionBalance p fp ⟨cost, payment, [], u :: urest⟩ =
      (if u.id = p then .ok (round2 (-cost)) else .error) := rfl

/-- Reduction of `getTransactionBalance` for a zero-repayment expense with no
users (Python raises `IndexError`). -/
theorem getTransactionBalance_nil_nil (p fp : ℤ) (cost : ℚ) (payment : Bool) :
    getTransactionBalance p fp ⟨cost, payment, [], []⟩ = .error := rfl

/-- Reduction of `getTransactionBalance` for an expense with two or more
repayments (Python raises `SplitwiseException`). -/
theorem getTransactionBalance_many (p fp : ℤ) (cost : ℚ) (payment : Bool)
    (r1 r2 : Repayment) (rest : List Repayment) (users : List SwUser) :
    getTransactionBalance p fp ⟨cost, payment, r1 :: r2 :: rest, users⟩ =
      .error := rfl

/-- C1: every transaction balance derived by `syncBillRecords` follows the
case table — a fetched record's balance is `cost - repayment.amount` for a
single repayment to the owner from the partner (payment false),
`repayment.amount` for a single repayment from the owner to the partner
(payment false), `-cost` for zero repayments, and `0` for a settlement,
always rounded to two decimal places; and conversely each table row produces
the stated balance. -/
theorem claim_C1 (p fp : ℤ) (hpf : p ≠ fp) (e : SwExpense) :
    (∀ q, getTransactionBalance p fp e = .ok q →
      (∃ r, e.repayments = [r] ∧ r.toUser = p ∧ r.fromUser = fp ∧
        e.payment = false ∧ q = round2 (e.cost - r.amount)) ∨
      (∃ r, e.repayments = [r] ∧ r.fromUser = p ∧ r.toUser = fp ∧
        e.payment = false ∧ q = round2 r.amount) ∨
      (e.repayments = [] ∧ q = round2 (-e.cost)) ∨
      (e.payment = true ∧ q = round2 0)) ∧
    (∀ r, e.repayments = [r] → r.toUser = p → r.fromUser = fp → e.payment = false →
      getTransactionBalance p fp e = .ok (round2 (e.cost - r.amount))) ∧
    (∀ r, e.repayments = [r] → r.fromUser = p → r.toUser = fp → e.payment = false →
      getTransactionBalance p fp e = .ok (round2 r.amount)) ∧
    (e.repayments = [] → (e.users.map SwUser.id).head? = some p →
      getTransactionBalance p fp e = .ok (round2 (-e.cost))) ∧
    (∀ r, e.repayments = [r] → e.payment = true → fp ∈ e.users.map SwUser.id →
      getTransactionBalance p fp e = .ok (round2 0)) := by
  obtain ⟨cost, payment, reps, users⟩ := e
  refine ⟨?_, ?_, ?_, ?_, ?_⟩
  · intro q h
    rcases reps with _ | ⟨r, _ | ⟨r2, rest⟩⟩
    · rcases users with _ | ⟨u, urest⟩
      · rw [getTransactionBalance_nil_nil] at h
        cases h
      · rw [getTransactionBalance_nil_cons] at h
        by_cases hu : u.id = p
        · rw [if_pos hu] at h
          cases h
          exact Or.inr (Or.inr (Or.inl ⟨rfl, rfl⟩))
        · rw [if_neg hu] at h
          cases h
    · rw [getTransactionBalance_single] at h
      by_cases hc1 : r.toUser = p ∧ r.fromUser = fp ∧ payment = false
      · rw [if_pos hc1] at h
        cases h
        exact Or.inl ⟨r, rfl, hc1.1, hc1.2.1, hc1.2.2, rfl⟩
      · rw [if_neg hc1] at h
        by_cases hc2 : r.fromUser = p ∧ r.toUser = fp ∧ payment = false
        · rw [if_pos hc2] at h
          cases h
          exact Or.inr (Or.inl ⟨r, rfl, hc2.1, hc2.2.1, hc2.2.2, rfl⟩)
        · rw [if_neg hc2] at h
          by_cases hc3 : fp ∉ users.map SwUser.id
          · rw [if_pos hc3] at h
            cases h
          · rw [if_neg hc3] at h
            by_cases hc4 : payment = true
            · rw [if_pos hc4] at h
              cases h
              exact Or.inr (Or.inr (Or.inr ⟨hc4, rfl⟩))
            · rw [if_neg hc4] at h
              cases h
    · rw [getTransactionBalance_many] at h
      cases h
  · intro r hre hto hfrom hpay
    cases hre
    rw [getTransactionBalance_single, if_pos ⟨hto, hfrom, hpay⟩]
  · intro r hre hfrom hto hpay
    cases hre
    rw [getTransactionBalance_single,
      if_neg (fun hc => hpf (hc.1.symm.trans hto)),
      if_pos ⟨hfrom, hto, hpay⟩]
  · intro hre hhead
    cases hre
    rcases users with _ | ⟨u, urest⟩
    · simp at hhead
    · simp only [List.map_cons, List.head?_cons, Option.some.injEq] at hhead
      rw [getTransactionBalance_nil_cons, if_pos hhead]
  · intro r hre hpay hmem
    cases hre
    rw [getTransactionBalance_single,
      if_neg (fun hc => by rw [hc.2.2] at hpay; cases hpay),
      if_neg (fun hc => by rw [hc.2.2] at hpay; cases hpay),
      if_neg (not_not_intro hmem), if_pos hpay]

/-- C1 witness: the split-bill-owed-to-owner scenario — one repayment of 20
flowing to the owner from the partner on a 40 cost yields
`round2 (40 - 20)`. -/
theorem claim_C1_witness :
    ((1 : ℤ) ≠ 2) ∧
    getTransactionBalance 1 2 ⟨40, false, [⟨2, 1, 20⟩], [⟨1⟩, ⟨2⟩]⟩ =
      .ok (round2 ((40 : ℚ) - 20)) :=
  ⟨by decide,
    (claim_C1 1 2 (by decide) ⟨40, false, [⟨2, 1, 20⟩], [⟨1⟩, ⟨2⟩]⟩).2.1
      ⟨2, 1, 20⟩ rfl rfl rfl rfl⟩

/-- A bill record with two repayments: the Python code raises
`SplitwiseException` on it. -/
def twoRepaymentExpense : SwExpense :=
  ⟨40, false, [⟨1, 2, 20⟩, ⟨2, 1, 5⟩], [⟨1⟩, ⟨2⟩]⟩

/-- A single-repayment bill record whose user list does not contain the
financial partner (partner id 2): the code discards it. -/
def partnerAbsentExpense : SwExpense :=
  ⟨40, false, [⟨3, 1, 20⟩], [⟨1⟩, ⟨3⟩]⟩

/-- C5 counterexample: a bill record with more than one repayment is not
discarded — `_get_transaction_balance` raises `SplitwiseException`
(modelled as `.error`), and the raise propagates out of the fetch, refuting
the claim that such records are discarded without an error. -/
theorem claim_C5_counterexample :
    getTransactionBalance 1 2 twoRepaymentExpense = .error ∧
    getTransactionBalance 1 2 twoRepaymentExpense ≠ .discard ∧
    getExpenses 1 2 [twoRepaymentExpense] = .error () :=
  ⟨rfl, by decide, rfl⟩

/-- C5 (amended): a bill record with exactly one repayment that matches
neither owner/partner pattern and whose user list does not include the
financial partner is discarded from the sync without an error, while a bill
record with more than one repayment makes the sync raise an error. -/
theorem claim_C5 (p fp : ℤ) (e : SwExpense) :
    (∀ r, e.repayments = [r] →
      ¬(r.toUser = p ∧ r.fromUser = fp ∧ e.payment = false) →
      ¬(r.fromUser = p ∧ r.toUser = fp ∧ e.payment = false) →
      fp ∉ e.users.map SwUser.id →
      getTransactionBalance p fp e = .discard ∧
      getExpenses p fp [e] = .ok []) ∧
    (2 ≤ e.repayments.length →
      getTransactionBalance p fp e = .error ∧
      getExpenses p fp [e] = .error ()) := by
  obtain ⟨cost, payment, reps, users⟩ := e
  constructor
  · intro r hre h1 h2 h3
    cases hre
    have hbal : getTransactionBalance p fp ⟨cost, payment, [r], users⟩ =
        .discard := by
      rw [getTransactionBalance_single, if_neg h1, if_neg h2, if_pos h3]
    exact ⟨hbal, by simp only [getExpenses, hbal]⟩
  · intro hlen
    rcases reps with _ | ⟨r, _ | ⟨r2, rest⟩⟩
    · simp at hlen
    · simp at hlen
    · have hbal : getTransactionBalance p fp
          ⟨cost, payment, r :: r2 :: rest, users⟩ = .error :=
        getTransactionBalance_many p fp cost payment r r2 rest users
      exact ⟨hbal, by simp only [getExpenses, hbal]⟩

/-- C5 witness: the discard conjunct of the amended claim applied to a
concrete partner-absent record. -/
theorem claim_C5_witness :
    getTransactionBalance 1 2 partnerAbsentExpense = .discard ∧
    getExpenses 1 2 [partnerAbsentExpense] = .ok [] :=
  (claim_C5 1 2 partnerAbsentExpense).1 ⟨3, 1, 20⟩ rfl (by decide) (by decide)
    (by decide)

end Splitwise

/-! ## Balance cascade
(`adjuftments/dashboard.py`: `_get_impacted_data`, `_get_account_balance_data`
and `_process_account_balances`) -/

namespace Cascade

/-- `accounts.type`: the source stores only `Checking` and `Savings`;
`_get_account_balance_data` indexes a two-key dictionary with this value, so
any other value raises `KeyError`. -/
inductive AccountType where
  | Checking
  | Savings
deriving DecidableEq, Repr, BEq

/-- A row of the `accounts` table. -/
structure Account where
  id : String
  name : String
  type : AccountType
  default : Bool
  starting_balance : ℚ
deriving DecidableEq, Repr

/-- The expense-row fields the cascade reads.  Timestamps are abstract
naturals ordered like the source's datetimes. -/
structure Tx where
  date : ℕ
  imported_at : ℕ
  created_at : ℕ
  category : String
  transaction : String
  account_name : String
  amount : ℚ
deriving DecidableEq, Repr

/-- Lexicographic comparison on `(date, imported_at, created_at)`, the
`sort_values(by=["date", "imported_at", "created_at"])` key. -/
def txLe (a b : Tx) : Bool :=
  if a.date ≠ b.date then decide (a.date < b.date)
  else if a.imported_at ≠ b.imported_at then decide (a.imported_at < b.imported_at)
  else decide (a.created_at ≤ b.created_at)

/-- Insertion step of the sort. -/
def insertTx (t : Tx) : List Tx → List Tx
  | [] => [t]
  | x :: xs => if txLe t x then t :: x :: xs else x :: insertTx t xs

/-- The chronological sort of the transaction stream (an insertion sort by
`txLe`; `sort_values` in the source — any sorted permutation carries the
same ending-balance content). -/
def sortTxs : List Tx → List Tx
  | [] => []
  | t :: ts => insertTx t (sortTxs ts)

/-- `Dashboard._get_account_impact_mapping`: the signed impact of one
transaction on the account named `name`.  A Savings-type expense (other than
category `Savings Spend`) debits checking and credits its own account (a
single self-credit when they coincide, matching the dict-overwrite in the
source); Income credits its own account; everything else debits its own
account. -/
def accountImpact (checking : String) (tx : Tx) (name : String) : ℚ :=
  let etype := categorize_expenses tx.category tx.transaction
  if etype = "Savings" ∧ tx.category ≠ "Savings Spend" then
    if name = tx.account_name then tx.amount
    else if name = checking then -tx.amount
    else 0
  else if etype = "Income" then
    if name = tx.account_name then tx.amount else 0
  else if name = tx.account_name then -tx.amount else 0

/-- Running cumulative sums starting from `acc` (`Series.cumsum`). -/
def cumsumFrom (acc : ℚ) : List ℚ → List ℚ
  | [] => []
  | x :: xs => (acc + x) :: cumsumFrom (acc + x) xs

/-- `cumsum` of an impact column. -/
def cumsum (l : List ℚ) : List ℚ := cumsumFrom 0 l

/-- `balanced_df.at[0, impact_column] += starting_balance`: add the starting
balance to the first row; on an empty frame the lookup raises `KeyError`
(modelled as `none`). -/
def seedFirst (s : ℚ) : List ℚ → Option (List ℚ)
  | [] => none
  | x :: xs => some ((x + s) :: xs)

/-- One account's ending balance: seed the first impact, accumulate, and take
the last row (`.iloc[-1]`). -/
def accountEnding (checking : String) (sorted : List Tx) (a : Account) : Option ℚ :=
  match seedFirst a.starting_balance
      (sorted.map (fun t => accountImpact checking t a.name)) with
  | none => none
  | some l => (cumsum l).getLast?

/-- The `for bank_account_name, account_data in account_dict.items()` loop of
`_get_account_balance_data`; an error on any account aborts the pass. -/
def accountEndings (checking : String) (sorted : List Tx) :
    List Account → Option (List (Account × ℚ))
  | [] => some []
  | a :: rest =>
    match accountEnding checking sorted a, accountEndings checking sorted rest with
    | some q, some r => some ((a, q) :: r)
    | _, _ => none

/-- `_process_bank_account_data`: the name of the first account of type
Checking; none raises `KeyError`. -/
def checkingName (accounts : List Account) : Option String :=
  (accounts.find? (fun a => a.type == AccountType.Checking)).map Account.name

/-- The cascade output: annotated ending balances and the rolled-up
totals. -/
structure CascadeResult where
  endings : List (Account × ℚ)
  checkingBalance : ℚ
  totalSavings : ℚ
  netWorth : ℚ
deriving Repr

/-- `_process_account_balances`: checking balance, total savings and net
worth from the per-account ending balances. -/
def assembleResult (endings : List (Account × ℚ)) : CascadeResult :=
  let checkingBal :=
    ((endings.filter (fun p => p.1.type == AccountType.Checking)).map
      Prod.snd).sum
  let savingsBal :=
    ((endings.filter (fun p => p.1.type == AccountType.Savings)).map
      Prod.snd).sum
  ⟨endings, checkingBal, savingsBal, checkingBal + savingsBal⟩

/-- `Dashboard._balance_df` followed by `_process_account_balances`: sort the
stream, derive per-account ending balances, and roll them up. -/
def balanceCascade (accounts : List Account) (txs : List Tx) :
    Option CascadeResult :=
  (checkingName accounts).bind (fun checking =>
    (accountEndings checking (sortTxs txs) accounts).map assembleResult)

/-- The last running total equals the seed plus the column sum. -/
theorem cumsumFrom_getLast? (l : List ℚ) :
    ∀ acc x, (cumsumFrom acc (x :: l)).getLast? = some (acc + (x :: l).sum) := by
  induction l with
  | nil => intro acc x; simp [cumsumFrom]
  | cons y ys ih =>
    intro acc x
    rw [show cumsumFrom acc (x :: y :: ys) =
      (acc + x) :: cumsumFrom (acc + x) (y :: ys) from rfl]
    rw [show cumsumFrom (acc + x) (y :: ys) =
      (acc + x + y) :: cumsumFrom (acc + x + y) ys from rfl]
    rw [List.getLast?_cons_cons]
    have h := ih (acc + x) y
    rw [show cumsumFrom (acc + x) (y :: ys) =
      (acc + x + y) :: cumsumFrom (acc + x + y) ys from rfl] at h
    rw [h]
    simp only [List.sum_cons, Option.some.injEq]
    ring

/-- On a nonempty sorted stream each account's ending balance is its starting
balance plus the sum of its impacts. -/
theorem accountEnding_eq (checking : String) (s : Tx) (ss : List Tx)
    (a : Account) :
    accountEnding checking (s :: ss) a =
      some (a.starting_balance +
        ((s :: ss).map (fun t => accountImpact checking t a.name)).sum) := by
  have h1 : accountEnding checking (s :: ss) a =
      (cumsumFrom 0 ((accountImpact checking s a.name + a.starting_balance) ::
        ss.map (fun t => accountImpact checking t a.name))).getLast? := rfl
  rw [h1, cumsumFrom_getLast?]
  simp only [List.sum_cons, Option.some.injEq, List.map_cons]
  ring

/-- All per-account endings at once. -/
theorem accountEndings_eq (checking : String) (s : Tx) (ss : List Tx)
    (accounts : List Account) :
    accountEndings checking (s :: ss) accounts =
      some (accounts.map (fun a =>
        (a, a.starting_balance +
          ((s :: ss).map (fun t => accountImpact checking t a.name)).sum))) := by
  induction accounts with
  | nil => rfl
  | cons a rest ih =>
    rw [accountEndings, accountEnding_eq, ih, List.map_cons]
    rfl

/-- Checking-balances plus savings-balances partition the sum of all ending
balances. -/
theorem sum_filter_partition (l : List (Account × ℚ)) :
    ((l.filter (fun p => p.1.type == AccountType.Checking)).map Prod.snd).sum +
      ((l.filter (fun p => p.1.type == AccountType.Savings)).map Prod.snd).sum =
    (l.map Prod.snd).sum := by
  induction l with
  | nil => simp
  | cons p rest ih =>
    rcases htype : p.1.type with _ | _
    · rw [List.filter_cons_of_pos (by rw [htype]; try rfl),
        List.filter_cons_of_neg (by rw [htype]; try exact Bool.false_ne_true),
        List.map_cons, List.sum_cons, List.map_cons, List.sum_cons, add_assoc,
        ih]
    · rw [List.filter_cons_of_neg (by rw [htype]; try exact Bool.false_ne_true),
        List.filter_cons_of_pos (by rw [htype]; try rfl),
        List.map_cons, List.sum_cons, List.map_cons, List.sum_cons, ← ih]
      ring

/-- With only two account types, the Savings accounts are exactly the
non-Checking accounts. -/
theorem savings_filter_eq_nonchecking (l : List (Account × ℚ)) :
    l.filter (fun p => p.1.type == AccountType.Savings) =
      l.filter (fun p => p.1.type != AccountType.Checking) := by
  apply List.filter_congr
  intro p _
  rcases p.1.type with _ | _ <;> rfl

/-- Field content of `_process_account_balances`. -/
theorem assembleResult_spec (e : List (Account × ℚ)) :
    (assembleResult e).endings = e ∧
    (assembleResult e).netWorth = (e.map Prod.snd).sum ∧
    (assembleResult e).totalSavings =
      ((e.filter (fun p => p.1.type != AccountType.Checking)).map
        Prod.snd).sum := by
  refine ⟨rfl, sum_filter_partition e, ?_⟩
  show ((e.filter (fun p => p.1.type == AccountType.Savings)).map
    Prod.snd).sum = _
  rw [savings_filter_eq_nonchecking]

/-- Inserting never empties the list. -/
theorem insertTx_ne_nil (t : Tx) (l : List Tx) : insertTx t l ≠ [] := by
  rcases l with _ | ⟨x, xs⟩
  · simp [insertTx]
  · rw [insertTx]
    split_ifs <;> simp

/-- C3: for every nonempty transaction stream and configured checking
account, the cascade succeeds and each account's ending balance equals its
starting balance plus the sum of the signed impacts assigned to it over the
chronologically sorted stream; net worth is the sum of all ending balances
and total savings the sum of the non-Checking ending balances. -/
theorem claim_C3 (accounts : List Account) (txs : List Tx) (checking : String)
    (hchk : checkingName accounts = some checking) (hne : txs ≠ []) :
    ∃ res, balanceCascade accounts txs = some res ∧
      res.endings = accounts.map (fun a =>
        (a, a.starting_balance +
          ((sortTxs txs).map (fun t => accountImpact checking t a.name)).sum)) ∧
      res.netWorth = (res.endings.map Prod.snd).sum ∧
      res.totalSavings = ((res.endings.filter
        (fun p => p.1.type != AccountType.Checking)).map Prod.snd).sum := by
  rcases txs with _ | ⟨t, ts⟩
  · exact absurd rfl hne
  obtain ⟨s, ss, hss⟩ : ∃ s ss, sortTxs (t :: ts) = s :: ss := by
    rcases h : sortTxs (t :: ts) with _ | ⟨s, ss⟩
    · exact absurd (h ▸ insertTx_ne_nil t (sortTxs ts)) (fun hf => hf rfl)
    · exact ⟨s, ss, rfl⟩
  rw [balanceCascade, hchk, Option.some_bind, hss, accountEndings_eq,
    Option.map_some']
  obtain ⟨h1, h2, h3⟩ := assembleResult_spec (accounts.map (fun a =>
    (a, a.starting_balance +
      ((s :: ss).map (fun t => accountImpact checking t a.name)).sum)))
  refine ⟨_, rfl, ?_, ?_, ?_⟩
  · rw [h1]
  · rw [h2, h1]
  · rw [h3, h1]

/-- A concrete checking account for witnesses. -/
def checkingAccount : Account :=
  ⟨"chk1", "Main Checking", AccountType.Checking, true, 1000⟩

/-- A concrete savings account for witnesses. -/
def savingsAccount : Account :=
  ⟨"sav1", "Misc Savings", AccountType.Savings, true, 500⟩

/-- A concrete transaction for witnesses. -/
def sampleTx : Tx :=
  ⟨1, 1, 1, "Food", "Lunch - Deli", "Main Checking", 12⟩

/-- C3 witness: the conservation statement instantiated on one checking and
one savings account with a single transaction. -/
theorem claim_C3_witness :
    checkingName [checkingAccount, savingsAccount] = some "Main Checking" ∧
    [sampleTx] ≠ [] ∧
    (∃ res, balanceCascade [checkingAccount, savingsAccount] [sampleTx] =
        some res ∧
      res.endings = [checkingAccount, savingsAccount].map (fun a =>
        (a, a.starting_balance +
          ((sortTxs [sampleTx]).map
            (fun t => accountImpact "Main Checking" t a.name)).sum)) ∧
      res.netWorth = (res.endings.map Prod.snd).sum ∧
      res.totalSavings = ((res.endings.filter
        (fun p => p.1.type != AccountType.Checking)).map Prod.snd).sum) :=
  ⟨rfl, by decide,
    claim_C3 [checkingAccount, savingsAccount] [sampleTx] "Main Checking" rfl
      (by decide)⟩

/-- C9 counterexample: on an empty transaction stream the cascade raises
(`balanced_df.at[0, ...] += starting_balance` fails on an empty frame,
modelled as `none`) instead of returning the starting balances, refuting
the claim that an empty stream yields the starting balances without
error. -/
theorem claim_C9_counterexample :
    balanceCascade [checkingAccount, savingsAccount] [] = none := rfl

/-- C9 (amended): for an empty transaction stream the balance cascade always
raises an error — the first-row seeding lookup fails — and returns no
balances. -/
theorem claim_C9 (accounts : List Account) :
    balanceCascade accounts [] = none := by
  rcases accounts with _ | ⟨a, rest⟩
  · rfl
  · rcases hc : checkingName (a :: rest) with _ | c
    · rw [balanceCascade, hc]
      try rfl
    · rw [balanceCascade, hc, Option.some_bind,
        show sortTxs ([] : List Tx) = [] from rfl]
      have hend : accountEndings c [] (a :: rest) = none := by
        rw [accountEndings, show accountEnding c [] a = none from rfl]
      rw [hend]
      try rfl

end Cascade

/-! ## Reconciliation engine
(`adjuftments/adjuftments.py`, with the v2 publish path from
`adjuftments_v2/adjuftments.py`) -/

namespace Engine

/-- A ledger/spreadsheet expense row. -/
structure ExpRow where
  id : String
  amount : ℚ
  transaction : String
  category : String
  date : String
  account : Option String
  account_name : Option String
  imported : Bool
  imported_at : Option ℕ
  splitwise : Bool
  splitwise_id : Option ℤ
  delete : Bool
  uuid : Option (String × ℚ × String × String)
  created_at : Option ℕ
deriving DecidableEq, Repr

/-- An internal mirror row of a Splitwise bill record. -/
structure SwRecord where
  id : ℤ
  transaction_balance : ℚ
  cost : ℚ
  date : String
  description : String
  payment : Bool
  deleted : Bool
deriving DecidableEq, Repr

/-- A row of the internal accounts table. -/
structure BankAccount where
  id : String
  name : String
  type : Cascade.AccountType
  default : Bool
deriving DecidableEq, Repr

/-- The two stores and the internal tables the engine reads and writes. -/
structure EngineState where
  airtable : List ExpRow
  dbExpenses : List ExpRow
  dbSplitwise : List SwRecord
  accounts : List BankAccount
  swCounter : ℤ
  airCounter : ℕ
deriving DecidableEq, Repr

/-- One write against a store. -/
inductive Ev where
  | loadDbExpense (id : String)
  | loadDbSplitwise (id : ℤ)
  | deleteDbExpense (id : String)
  | deleteDbSplitwise (id : ℤ)
  | createAirtable (id : String)
  | updateAirtable (id : String)
  | deleteAirtable (id : String)
  | createSplitwiseRemote (id : ℤ)
  | deleteSplitwiseRemote (id : ℤ)
deriving DecidableEq, Repr

def upsertExpenseRow (rows : List ExpRow) (r : ExpRow) : List ExpRow :=
  if rows.any (fun x => x.id == r.id) then
    rows.map (fun x => if x.id == r.id then r else x)
  else rows ++ [r]

def upsertSwRow (rows : List SwRecord) (r : SwRecord) : List SwRecord :=
  if rows.any (fun x => x.id == r.id) then
    rows.map (fun x => if x.id == r.id then r else x)
  else rows ++ [r]

/-- An airtable update posts every field except the popped `created_at` and
`id`. -/
def mergeAirtableFields (existing fields : ExpRow) : ExpRow :=
  { fields with id := existing.id, created_at := existing.created_at }

def updateAirtableRows (rows : List ExpRow) (rid : String) (fields : ExpRow) :
    List ExpRow :=
  rows.map (fun x => if x.id == rid then mergeAirtableFields x fields else x)

def firstChecking (accounts : List BankAccount) : Option BankAccount :=
  accounts.find? (fun a => a.type == Cascade.AccountType.Checking)

def defaultSavings (accounts : List BankAccount) : Option BankAccount :=
  accounts.find? (fun a => a.default && a.type == Cascade.AccountType.Savings)

/-- The sha256 content hash over transaction text, amount, date and category,
modelled as the tuple of the four fields. -/
def fingerprint (r : ExpRow) : String × ℚ × String × String :=
  (r.transaction, r.amount, r.date, r.category)

def prepareExpensesRecordForUpsert (accounts : List BankAccount) (now : ℕ)
    (record : ExpRow) : Option (ExpRow × Bool) :=
  match firstChecking accounts with
  | none => none
  | some checking =>
    let updated : ExpRow :=
      { record with
        imported := true
        imported_at := some now
        splitwise := false
        uuid := some (fingerprint record) }
    let expense_type := categorize_expenses record.category record.transaction
    if updated.account = some checking.id ∧ expense_type = "Savings" then
      match defaultSavings accounts with
      | none => none
      | some savings =>
        some ({ updated with
          account := some savings.id
          account_name := some savings.name }, true)
    else if expense_type ∉ ["Savings", "Adjustment"] ∧
        record.category ≠ "Interest" ∧ updated.account ≠ none ∧
        updated.account ≠ some checking.id then
      some ({ updated with
        account := some checking.id
        account_name := some checking.name }, true)
    else if updated.account = none then
      some ({ updated with
        account := some checking.id
        account_name := some checking.name }, false)
    else
      some (updated, false)

def upsertAirtableExpense (st : EngineState) (now : ℕ) (rec : ExpRow) :
    Except Unit (EngineState × List Ev × ExpRow) :=
  if rec.splitwise then .error ()
  else
    match prepareExpensesRecordForUpsert st.accounts now rec with
    | none => .error ()
    | some (updated, _) =>
      .ok ({ st with
          dbExpenses := upsertExpenseRow st.dbExpenses updated
          airtable := updateAirtableRows st.airtable rec.id updated },
        [Ev.loadDbExpense updated.id, Ev.updateAirtable rec.id], updated)

def handleAirtableDeleteRequest (st : EngineState) (rec : ExpRow) :
    EngineState × List Ev :=
  let s1 : EngineState × List Ev :=
    match rec.splitwise_id with
    | some sid =>
      ({ st with dbSplitwise := st.dbSplitwise.filter (fun r => r.id != sid) },
        [Ev.deleteSplitwiseRemote sid, Ev.deleteDbSplitwise sid])
    | none => (st, [])
  let s2 : EngineState × List Ev :=
    if s1.1.dbExpenses.any (fun x => x.id == rec.id) then
      ({ s1.1 with dbExpenses :=
          s1.1.dbExpenses.filter (fun x => x.id != rec.id) },
        s1.2 ++ [Ev.deleteDbExpense rec.id])
    else s1
  ({ s2.1 with airtable := s2.1.airtable.filter (fun x => x.id != rec.id) },
    s2.2 ++ [Ev.deleteAirtable rec.id])

def handleAirtableSplitwiseRequest (newSw : ℤ → ℚ → String → SwRecord)
    (st : EngineState) (now : ℕ) (rec : ExpRow) :
    Except Unit (EngineState × List Ev) :=
  match rec.splitwise_id with
  | none =>
    (upsertAirtableExpense
        { st with
          swCounter := st.swCounter + 1
          dbSplitwise := upsertSwRow st.dbSplitwise
            (newSw st.swCounter rec.amount rec.transaction) }
        now
        { rec with
          splitwise := false
          splitwise_id := some (newSw st.swCounter rec.amount
            rec.transaction).id
          amount := (newSw st.swCounter rec.amount
            rec.transaction).transaction_balance }).map
      (fun p => (p.1,
        Ev.createSplitwiseRemote (newSw st.swCounter rec.amount
          rec.transaction).id ::
        Ev.loadDbSplitwise (newSw st.swCounter rec.amount
          rec.transaction).id :: p.2.1))
  | some sid =>
    (upsertAirtableExpense st now
        (if st.dbSplitwise.any (fun r => r.id == sid)
          then { rec with splitwise := false }
          else { rec with splitwise := false, splitwise_id := none })).map
      (fun p => (p.1, p.2.1))

def processAirtableExpense (newSw : ℤ → ℚ → String → SwRecord)
    (st : EngineState) (now : ℕ) (rec : ExpRow) :
    Except Unit (EngineState × List Ev) :=
  if rec.delete then .ok (handleAirtableDeleteRequest st rec)
  else if rec.splitwise then handleAirtableSplitwiseRequest newSw st now rec
  else
    (upsertAirtableExpense st now
        (match rec.splitwise_id with
          | some sid =>
            if st.dbSplitwise.any (fun r => r.id == sid) then rec
            else { rec with splitwise_id := none }
          | none => rec)).map
      (fun p => (p.1, p.2.1))

def dirtyRows (rows : List ExpRow) : List ExpRow :=
  rows.filter (fun r => !r.imported || r.delete)

def processAll (newSw : ℤ → ℚ → String → SwRecord) (now : ℕ) :
    EngineState → List ExpRow → List Ev → Except Unit (EngineState × List Ev)
  | st, [], acc => .ok (st, acc)
  | st, r :: rest, acc =>
    match processAirtableExpense newSw st now r with
    | .error _ => .error ()
    | .ok (st2, evs) => processAll newSw now st2 rest (acc ++ evs)

def refreshAirtableExpensesData (newSw : ℤ → ℚ → String → SwRecord)
    (st : EngineState) (now : ℕ) :
    Except Unit (EngineState × List Ev × ℕ) :=
  (processAll newSw now st (dirtyRows st.airtable) []).map
    (fun p => (p.1, p.2, (dirtyRows st.airtable).length))

/-- Python `description.split(" - ")` at the character level. -/
def splitDashSep : List Char → List (List Char)
  | [] => [[]]
  | ' ' :: '-' :: ' ' :: rest => [] :: splitDashSep rest
  | c :: rest =>
    match splitDashSep rest with
    | g :: gs => (c :: g) :: gs
    | [] => [[c]]

/-- `" - ".join(...)` at the character level. -/
def joinDashSep : List (List Char) → List Char
  | [] => []
  | [x] => x
  | x :: xs => x ++ ' ' :: '-' :: ' ' :: joinDashSep xs

/-- `AdjuftmentsEncoder.parse_adjuftments_description`: prepend the default
label when the description has no `" - "` segments, strip each segment, and
rejoin. -/
def parseAdjuftmentsDescription (description defaultString : String) : String :=
  let parsed := splitDashSep description.toList
  let parsed :=
    if parsed.length = 1 then defaultString.toList :: parsed else parsed
  String.mk (joinDashSep (parsed.map trimChars))

/-- The ledger-shaped row built for a publish-manifest item in
`_generate_splitwise_manifest` (date flooring to local midnight is carried
abstractly by the date string). -/
def splitwiseToLedgerRow (r : SwRecord) : ExpRow :=
  { id := ""
    amount := r.transaction_balance
    transaction := parseAdjuftmentsDescription r.description "Splitwise"
    category := "Splitwise"
    date := r.date
    account := none
    account_name := none
    imported := false
    imported_at := none
    splitwise := false
    splitwise_id := some r.id
    delete := false
    uuid := none
    created_at := none }

/-- `_generate_splitwise_manifest`: partition fetched bill records into the
publish manifest (active, non-payment, non-deleted) and the delete manifest
(deleted records). -/
def generateSplitwiseManifest : List SwRecord → List ExpRow × List SwRecord
  | [] => ([], [])
  | r :: rest =>
    let m := generateSplitwiseManifest rest
    if r.payment = false ∧ r.deleted = false then
      (splitwiseToLedgerRow r :: m.1, m.2)
    else if r.deleted = true then (m.1, r :: m.2)
    else m

/-- One delete-manifest item in `refresh_splitwise_data`: find internal
ledger rows whose `splitwise_id` equals the bill record's id; on a unique
match delete the spreadsheet row, then the internal row, then upsert the
bill record; on no match only upsert; on several matches the `assert`
raises. -/
def applyDeleteManifestItem (st : EngineState) (rec : SwRecord) :
    Except Unit (EngineState × List Ev) :=
  match st.dbExpenses.filter (fun x => x.splitwise_id == some rec.id) with
  | [] =>
    .ok ({ st with dbSplitwise := upsertSwRow st.dbSplitwise rec },
      [Ev.loadDbSplitwise rec.id])
  | [m] =>
    .ok ({ st with
        airtable := st.airtable.filter (fun x => x.id != m.id)
        dbExpenses := st.dbExpenses.filter (fun x => x.id != m.id)
        dbSplitwise := upsertSwRow st.dbSplitwise rec },
      [Ev.deleteAirtable m.id, Ev.deleteDbExpense m.id,
        Ev.loadDbSplitwise rec.id])
  | _ => .error ()

/-- The `for preexisting_record in preexisting_data` loop of the newer
engine's publish-manifest application: upsert the item once per matching
ledger row, with the item's id overwritten by the row's id. -/
def upsertForEach (now : ℕ) :
    EngineState → List ExpRow → ExpRow → List Ev →
    Except Unit (EngineState × List Ev)
  | st, [], _, acc => .ok (st, acc)
  | st, m :: ms, item, acc =>
    match upsertAirtableExpense st now { item with id := m.id } with
    | .error _ => .error ()
    | .ok (st2, evs, _) => upsertForEach now st2 ms item (acc ++ evs)

/-- One publish-manifest item in the newer engine
(`adjuftments/adjuftments.py` `refresh_splitwise_data`): look up internal
ledger rows by the item's `splitwise_id`; if none exist, create the item as
a new spreadsheet row and upsert it; otherwise upsert into each matching
row. -/
def applySuccessManifestItem (freshAirId : ℕ → String) (st : EngineState)
    (now : ℕ) (item : ExpRow) : Except Unit (EngineState × List Ev) :=
  if (st.dbExpenses.filter
      (fun x => x.splitwise_id == item.splitwise_id)).isEmpty then
    (upsertAirtableExpense
        { st with
          airtable := st.airtable ++
            [{ item with id := freshAirId st.airCounter }]
          airCounter := st.airCounter + 1 }
        now { item with id := freshAirId st.airCounter }).map
      (fun p => (p.1, Ev.createAirtable (freshAirId st.airCounter) :: p.2.1))
  else
    upsertForEach now st
      (st.dbExpenses.filter (fun x => x.splitwise_id == item.splitwise_id))
      item []

/-- One publish-manifest item in the v2 engine
(`adjuftments_v2/adjuftments.py` `refresh_splitwise_data`): create the item
directly as a new spreadsheet row, with no lookup, merge or update. -/
def applySuccessManifestItemV2 (freshAirId : ℕ → String) (st : EngineState)
    (item : ExpRow) : EngineState × List Ev :=
  let newRow := { item with id := freshAirId st.airCounter }
  ({ st with
      airtable := st.airtable ++ [newRow]
      airCounter := st.airCounter + 1 },
    [Ev.createAirtable newRow.id])

/-- The configured checking account. -/
def mainChecking : BankAccount :=
  ⟨"chk1", "Main Checking", Cascade.AccountType.Checking, true⟩

/-- The configured default savings account. -/
def miscSavings : BankAccount :=
  ⟨"sav1", "Misc Savings", Cascade.AccountType.Savings, true⟩

/-- The standard account configuration for witnesses. -/
def stdAccounts : List BankAccount := [mainChecking, miscSavings]

/-- Fields every prepared record carries regardless of the account-override
branch taken. -/
theorem prepare_spec {accounts : List BankAccount} {now : ℕ}
    {record u : ExpRow} {b : Bool}
    (h : prepareExpensesRecordForUpsert accounts now record = some (u, b)) :
    u.id = record.id ∧ u.imported = true ∧ u.splitwise = false ∧
    u.delete = record.delete := by
  unfold prepareExpensesRecordForUpsert at h
  cases hchk : firstChecking accounts with
  | none => rw [hchk] at h; cases h
  | some checking =>
    rw [hchk] at h
    dsimp only at h
    by_cases h1 : record.account = some checking.id ∧
        categorize_expenses record.category record.transaction = "Savings"
    · rw [if_pos h1] at h
      cases hsv : defaultSavings accounts with
      | none => rw [hsv] at h; cases h
      | some savings => rw [hsv] at h; cases h; exact ⟨rfl, rfl, rfl, rfl⟩
    · rw [if_neg h1] at h
      by_cases h2 : categorize_expenses record.category record.transaction ∉
            ["Savings", "Adjustment"] ∧ record.category ≠ "Interest" ∧
            record.account ≠ none ∧ record.account ≠ some checking.id
      · rw [if_pos h2] at h; cases h; exact ⟨rfl, rfl, rfl, rfl⟩
      · rw [if_neg h2] at h
        by_cases h3 : record.account = none
        · rw [if_pos h3] at h; cases h; exact ⟨rfl, rfl, rfl, rfl⟩
        · rw [if_neg h3] at h; cases h; exact ⟨rfl, rfl, rfl, rfl⟩

/-- Inversion of a successful shared upsert. -/
theorem upsertAirtableExpense_ok {st : EngineState} {now : ℕ} {rec : ExpRow}
    {st2 : EngineState} {evs : List Ev} {out : ExpRow}
    (h : upsertAirtableExpense st now rec = .ok (st2, evs, out)) :
    ∃ b, prepareExpensesRecordForUpsert st.accounts now rec = some (out, b) ∧
      rec.splitwise = false ∧
      st2 = { st with
        dbExpenses := upsertExpenseRow st.dbExpenses out
        airtable := updateAirtableRows st.airtable rec.id out } ∧
      evs = [Ev.loadDbExpense out.id, Ev.updateAirtable rec.id] := by
  unfold upsertAirtableExpense at h
  by_cases hsw : rec.splitwise = true
  · rw [if_pos hsw] at h; cases h
  · rw [if_neg hsw] at h
    cases hp : prepareExpensesRecordForUpsert st.accounts now rec with
    | none => rw [hp] at h; cases h
    | some p =>
      obtain ⟨u, b⟩ := p
      rw [hp] at h
      cases h
      exact ⟨b, rfl, by simpa using hsw, rfl, rfl⟩

/-- The write trace of an engine step, when it did not raise. -/
def resultEvs (r : Except Unit (EngineState × List Ev)) : Option (List Ev) :=
  match r with
  | .ok p => some p.2
  | .error _ => none


/-- An Adjustment-type row carrying a non-default, non-checking account. -/
def adjustmentRow : ExpRow :=
  { id := "e9"
    amount := 15
    transaction := "Adjustment - fix"
    category := "Adjustment"
    date := "2021-02-03"
    account := some "other-acct"
    account_name := some "Other"
    imported := false
    imported_at := none
    splitwise := false
    splitwise_id := none
    delete := false
    uuid := none
    created_at := some 0 }

/-- C8 counterexample: an Adjustment-type row whose account is neither unset
nor the default Checking account keeps its supplied account — the
`improper_checking` test excludes expense type `Adjustment`
(`expense_type not in ["Savings", "Adjustment"]`), so no override to the
checking account happens, refuting the claim that plain Expense/Adjustment
rows are corrected. -/
theorem claim_C8_counterexample :
    firstChecking stdAccounts = some mainChecking ∧
    categorize_expenses adjustmentRow.category adjustmentRow.transaction =
      "Adjustment" ∧
    (prepareExpensesRecordForUpsert stdAccounts 0 adjustmentRow).map
      (fun p => p.1.account) = some (some "other-acct") ∧
    ("other-acct" : String) ≠ mainChecking.id :=
  ⟨rfl, rfl, rfl, by decide⟩

/-- C8 (amended): in the shared upsert path, a row whose expense type is
Savings and whose account equals the default Checking account is overridden
to the default Savings account with a surfaced correction; a row whose
expense type is neither Savings nor Adjustment, whose category is not
`Interest`, and whose account is neither unset nor the checking account is
overridden to the checking account with a surfaced correction; any other row
keeps its supplied account, with an unset account defaulting quietly to
Checking. -/
theorem claim_C8 (accounts : List BankAccount) (now : ℕ) (record : ExpRow)
    (checking : BankAccount) (hchk : firstChecking accounts = some checking) :
    (record.account = some checking.id →
      categorize_expenses record.category record.transaction = "Savings" →
      ∀ savings, defaultSavings accounts = some savings →
      ∃ u, prepareExpensesRecordForUpsert accounts now record =
          some (u, true) ∧
        u.account = some savings.id ∧ u.account_name = some savings.name) ∧
    (categorize_expenses record.category record.transaction ∉
        ["Savings", "Adjustment"] →
      record.category ≠ "Interest" → record.account ≠ none →
      record.account ≠ some checking.id →
      ∃ u, prepareExpensesRecordForUpsert accounts now record =
          some (u, true) ∧
        u.account = some checking.id ∧ u.account_name = some checking.name) ∧
    (¬(record.account = some checking.id ∧
        categorize_expenses record.category record.transaction = "Savings") →
      ¬(categorize_expenses record.category record.transaction ∉
          ["Savings", "Adjustment"] ∧
        record.category ≠ "Interest" ∧ record.account ≠ none ∧
        record.account ≠ some checking.id) →
      record.account = none →
      ∃ u, prepareExpensesRecordForUpsert accounts now record =
          some (u, false) ∧
        u.account = some checking.id) ∧
    (¬(record.account = some checking.id ∧
        categorize_expenses record.category record.transaction = "Savings") →
      ¬(categorize_expenses record.category record.transaction ∉
          ["Savings", "Adjustment"] ∧
        record.category ≠ "Interest" ∧ record.account ≠ none ∧
        record.account ≠ some checking.id) →
      record.account ≠ none →
      ∃ u, prepareExpensesRecordForUpsert accounts now record =
          some (u, false) ∧
        u.account = record.account) := by
  refine ⟨?_, ?_, ?_, ?_⟩
  · intro h1 h2 savings hsv
    rw [prepareExpensesRecordForUpsert, hchk]
    dsimp only
    rw [if_pos ⟨h1, h2⟩, hsv]
    exact ⟨_, rfl, rfl, rfl⟩
  · intro hnotin hint hne hneid
    rw [prepareExpensesRecordForUpsert, hchk]
    dsimp only
    rw [if_neg (fun hc => hneid hc.1), if_pos ⟨hnotin, hint, hne, hneid⟩]
    exact ⟨_, rfl, rfl, rfl⟩
  · intro hna hnb hnone
    rw [prepareExpensesRecordForUpsert, hchk]
    dsimp only
    rw [if_neg hna, if_neg hnb, if_pos hnone]
    exact ⟨_, rfl, rfl⟩
  · intro hna hnb hne
    rw [prepareExpensesRecordForUpsert, hchk]
    dsimp only
    rw [if_neg hna, if_neg hnb, if_neg hne]
    exact ⟨_, rfl, rfl⟩

/-- A Savings row pointed at the default checking account. -/
def savingsOnCheckingRow : ExpRow :=
  { adjustmentRow with
    id := "e10"
    transaction := "Savings - Monthly"
    category := "Savings"
    account := some "chk1" }

/-- C8 witness: the Savings-on-checking override instantiated on the
standard two-account configuration. -/
theorem claim_C8_witness :
    firstChecking stdAccounts = some mainChecking ∧
    savingsOnCheckingRow.account = some mainChecking.id ∧
    categorize_expenses savingsOnCheckingRow.category
      savingsOnCheckingRow.transaction = "Savings" ∧
    defaultSavings stdAccounts = some miscSavings ∧
    (∃ u, prepareExpensesRecordForUpsert stdAccounts 0 savingsOnCheckingRow =
        some (u, true) ∧
      u.account = some miscSavings.id ∧
      u.account_name = some miscSavings.name) :=
  ⟨rfl, rfl, rfl, rfl,
    (claim_C8 stdAccounts 0 savingsOnCheckingRow mainChecking rfl).1
      rfl rfl miscSavings rfl⟩

/-- C10: a record whose splitwise flag is still true makes the shared upsert
helper raise before any write (the error carries no state change), and every
row the helper does write carries `splitwise = false` and `imported = true`
in both stores. -/
theorem claim_C10 (st : EngineState) (now : ℕ) (rec : ExpRow) :
    (rec.splitwise = true → upsertAirtableExpense st now rec = .error ()) ∧
    (∀ st2 evs out, upsertAirtableExpense st now rec = .ok (st2, evs, out) →
      out.splitwise = false ∧ out.imported = true ∧
      st2.dbExpenses = upsertExpenseRow st.dbExpenses out ∧
      st2.airtable = updateAirtableRows st.airtable rec.id out) := by
  constructor
  · intro hsw
    rw [upsertAirtableExpense, if_pos hsw]
  · intro st2 evs out h
    obtain ⟨b, hp, -, hst, -⟩ := upsertAirtableExpense_ok h
    obtain ⟨-, him, hsw, -⟩ := prepare_spec hp
    subst hst
    exact ⟨hsw, him, rfl, rfl⟩

/-- A row still flagged for bill-service creation. -/
def pendingSplitwiseRow : ExpRow := { adjustmentRow with splitwise := true }

/-- C10 witness: the raise conjunct applied to a concrete still-flagged
record. -/
theorem claim_C10_witness :
    pendingSplitwiseRow.splitwise = true ∧
    upsertAirtableExpense
      ⟨[], [], [], stdAccounts, 0, 0⟩ 0 pendingSplitwiseRow = .error () :=
  ⟨rfl, (claim_C10 ⟨[], [], [], stdAccounts, 0, 0⟩ 0 pendingSplitwiseRow).1 rfl⟩

/-- An imported ledger row mirroring bill record 5. -/
def ledgerRow5 : ExpRow :=
  { id := "e1"
    amount := 20
    transaction := "Splitwise - Dinner"
    category := "Splitwise"
    date := "2021-01-05"
    account := some "chk1"
    account_name := some "Main Checking"
    imported := true
    imported_at := some 5
    splitwise := false
    splitwise_id := some 5
    delete := false
    uuid := none
    created_at := some 1 }

/-- Bill record 5, marked deleted upstream. -/
def deletedBill5 : SwRecord := ⟨5, 10, 20, "2021-01-05", "Dinner", false, true⟩

/-- A store state holding the mirror pair for bill record 5. -/
def c6State : EngineState :=
  ⟨[ledgerRow5], [ledgerRow5], [], stdAccounts, 0, 0⟩

/-- C6 counterexample: with a unique matching ledger row the engine removes
the spreadsheet mirror first and the internal row second — the trace is
`[deleteAirtable, deleteDbExpense, loadDbSplitwise]`, not the claimed
internal-store-first order. -/
theorem claim_C6_counterexample :
    resultEvs (applyDeleteManifestItem c6State deletedBill5) =
      some [Ev.deleteAirtable "e1", Ev.deleteDbExpense "e1",
        Ev.loadDbSplitwise 5] ∧
    [Ev.deleteAirtable "e1", Ev.deleteDbExpense "e1",
        Ev.loadDbSplitwise 5] ≠
      [Ev.deleteDbExpense "e1", Ev.deleteAirtable "e1",
        Ev.loadDbSplitwise 5] :=
  ⟨rfl, by decide⟩

/-- C6 (amended): for a delete-manifest bill record, a unique matching
ledger row has its spreadsheet mirror removed, then its internal row
removed, then the deleted bill record upserted, in that order; zero matches
upsert only the bill record without error; two or more matches raise. -/
theorem claim_C6 (st : EngineState) (rec : SwRecord) :
    (st.dbExpenses.filter (fun x => x.splitwise_id == some rec.id) = [] →
      applyDeleteManifestItem st rec =
        .ok ({ st with dbSplitwise := upsertSwRow st.dbSplitwise rec },
          [Ev.loadDbSplitwise rec.id])) ∧
    (∀ m, st.dbExpenses.filter (fun x => x.splitwise_id == some rec.id) =
        [m] →
      applyDeleteManifestItem st rec =
        .ok ({ st with
            airtable := st.airtable.filter (fun x => x.id != m.id)
            dbExpenses := st.dbExpenses.filter (fun x => x.id != m.id)
            dbSplitwise := upsertSwRow st.dbSplitwise rec },
          [Ev.deleteAirtable m.id, Ev.deleteDbExpense m.id,
            Ev.loadDbSplitwise rec.id])) ∧
    (∀ m1 m2 ms,
      st.dbExpenses.filter (fun x => x.splitwise_id == some rec.id) =
        m1 :: m2 :: ms →
      applyDeleteManifestItem st rec = .error ()) := by
  refine ⟨?_, ?_, ?_⟩
  · intro h0
    rw [applyDeleteManifestItem, h0]
  · intro m hm
    rw [applyDeleteManifestItem, hm]
  · intro m1 m2 ms hms
    rw [applyDeleteManifestItem, hms]

/-- C6 witness: the unique-match conjunct applied to the concrete mirror
pair. -/
theorem claim_C6_witness :
    c6State.dbExpenses.filter
      (fun x => x.splitwise_id == some deletedBill5.id) = [ledgerRow5] ∧
    applyDeleteManifestItem c6State deletedBill5 =
      .ok ({ c6State with
          airtable := c6State.airtable.filter
            (fun x => x.id != ledgerRow5.id)
          dbExpenses := c6State.dbExpenses.filter
            (fun x => x.id != ledgerRow5.id)
          dbSplitwise := upsertSwRow c6State.dbSplitwise deletedBill5 },
        [Ev.deleteAirtable ledgerRow5.id, Ev.deleteDbExpense ledgerRow5.id,
          Ev.loadDbSplitwise deletedBill5.id]) :=
  ⟨rfl, (claim_C6 c6State deletedBill5).2.1 ledgerRow5 rfl⟩


/-- Every write of the preexisting-row loop is an internal-store upsert or a
spreadsheet update of an existing row; nothing is created. -/
theorem upsertForEach_evs (now : ℕ) (ms : List ExpRow) :
    ∀ (st : EngineState) (item : ExpRow) (acc : List Ev)
      (st2 : EngineState) (l : List Ev),
      upsertForEach now st ms item acc = .ok (st2, l) →
      (∀ e ∈ acc, (∃ i, e = Ev.loadDbExpense i) ∨
        (∃ i, e = Ev.updateAirtable i)) →
      ∀ e ∈ l, (∃ i, e = Ev.loadDbExpense i) ∨
        (∃ i, e = Ev.updateAirtable i) := by
  induction ms with
  | nil =>
    intro st item acc st2 l h hacc
    cases h
    exact hacc
  | cons m mrest ih =>
    intro st item acc st2 l h hacc
    rw [upsertForEach] at h
    cases hup : upsertAirtableExpense st now { item with id := m.id } with
    | error e => rw [hup] at h; cases h
    | ok p =>
      obtain ⟨st3, evs, out⟩ := p
      rw [hup] at h
      obtain ⟨b, hp, hsw, hst, hevs⟩ := upsertAirtableExpense_ok hup
      refine ih st3 item (acc ++ evs) st2 l h ?_
      intro e he
      rcases List.mem_append.mp he with h1 | h2
      · exact hacc e h1
      · subst hevs
        rcases List.mem_cons.mp h2 with rfl | h2
        · exact Or.inl ⟨out.id, rfl⟩
        rcases List.mem_cons.mp h2 with rfl | h2
        · exact Or.inr ⟨{ item with id := m.id }.id, rfl⟩
        · cases h2

/-- A publish-manifest item referencing bill record 5 (as produced by
`_generate_splitwise_manifest`). -/
def c7Item : ExpRow :=
  { id := ""
    amount := 10
    transaction := "Splitwise - Dinner"
    category := "Splitwise"
    date := "2021-01-05"
    account := none
    account_name := none
    imported := false
    imported_at := none
    splitwise := false
    splitwise_id := some 5
    delete := false
    uuid := none
    created_at := none }

/-- An abstract spreadsheet id generator for witnesses. -/
def constFresh : ℕ → String := fun _ => "new0"

/-- C7 counterexample: when an internal ledger row already matches the
publish item's splitwise id, the newer engine updates it through the shared
upsert (internal-store write plus spreadsheet update) and creates no new
spreadsheet row, refuting the claim that publish items are always created
directly with no lookup or merge. -/
theorem claim_C7_counterexample :
    resultEvs (applySuccessManifestItem constFresh c6State 0 c7Item) =
      some [Ev.loadDbExpense "e1", Ev.updateAirtable "e1"] ∧
    Ev.createAirtable "new0" ∉
      [Ev.loadDbExpense "e1", Ev.updateAirtable "e1"] ∧
    Ev.updateAirtable "e1" ∈
      [Ev.loadDbExpense "e1", Ev.updateAirtable "e1"] :=
  ⟨rfl, by decide, by decide⟩

/-- C7 (amended): the newer engine looks up internal ledger rows by the
publish item's splitwise id — with no match it creates the item as a new
spreadsheet row and then upserts it; with matches it performs only
internal-store upserts and spreadsheet updates of the matching rows,
creating nothing.  The v2 engine creates every item directly with no
lookup. -/
theorem claim_C7 (freshAirId : ℕ → String) (st : EngineState) (now : ℕ)
    (item : ExpRow) :
    (st.dbExpenses.filter (fun x => x.splitwise_id == item.splitwise_id) =
        [] →
      item.splitwise = false →
      ∀ u b, prepareExpensesRecordForUpsert st.accounts now
          { item with id := freshAirId st.airCounter } = some (u, b) →
      ∃ st2, applySuccessManifestItem freshAirId st now item =
        .ok (st2, [Ev.createAirtable (freshAirId st.airCounter),
          Ev.loadDbExpense u.id,
          Ev.updateAirtable (freshAirId st.airCounter)])) ∧
    (st.dbExpenses.filter (fun x => x.splitwise_id == item.splitwise_id) ≠
        [] →
      ∀ l, resultEvs (applySuccessManifestItem freshAirId st now item) =
          some l →
        (∀ i, Ev.createAirtable i ∉ l) ∧
        ∀ e ∈ l, (∃ i, e = Ev.loadDbExpense i) ∨
          (∃ i, e = Ev.updateAirtable i)) ∧
    applySuccessManifestItemV2 freshAirId st item =
      ({ st with
          airtable := st.airtable ++ [{ item with
            id := freshAirId st.airCounter }]
          airCounter := st.airCounter + 1 },
        [Ev.createAirtable (freshAirId st.airCounter)]) := by
  refine ⟨?_, ?_, rfl⟩
  · intro hpre hsw u b hu
    rw [applySuccessManifestItem, if_pos (by rw [hpre]; rfl),
      upsertAirtableExpense, if_neg (by simp [hsw])]
    dsimp only
    rw [hu]
    exact ⟨_, rfl⟩
  · intro hne l hl
    rw [applySuccessManifestItem,
      if_neg (by simpa [List.isEmpty_iff] using hne)] at hl
    cases hfe : upsertForEach now st
        (st.dbExpenses.filter (fun x => x.splitwise_id == item.splitwise_id))
        item [] with
    | error e => rw [hfe] at hl; cases hl
    | ok p =>
      rw [hfe] at hl
      cases hl
      have hall := upsertForEach_evs now _ st item [] p.1 p.2 hfe
        (by intro e he; cases he)
      refine ⟨fun i hi => ?_, hall⟩
      rcases hall _ hi with ⟨j, hj⟩ | ⟨j, hj⟩ <;> cases hj

/-- C7 witness: the create-then-upsert conjunct applied to an empty internal
store. -/
theorem claim_C7_witness :
    (⟨[], [], [], stdAccounts, 0, 0⟩ : EngineState).dbExpenses.filter
      (fun x => x.splitwise_id == c7Item.splitwise_id) = [] ∧
    c7Item.splitwise = false ∧
    (∃ st2, applySuccessManifestItem constFresh
        ⟨[], [], [], stdAccounts, 0, 0⟩ 0 c7Item =
      .ok (st2, [Ev.createAirtable "new0", Ev.loadDbExpense "new0",
        Ev.updateAirtable "new0"])) :=
  ⟨rfl, rfl,
    (claim_C7 constFresh ⟨[], [], [], stdAccounts, 0, 0⟩ 0 c7Item).1
      rfl rfl _ _ rfl⟩


/-- The delete path never touches spreadsheet rows other than the target:
its final spreadsheet content is the original minus the target id. -/
theorem handleDelete_airtable (st : EngineState) (r : ExpRow) :
    (handleAirtableDeleteRequest st r).1.airtable =
      st.airtable.filter (fun x => x.id != r.id) := by
  rw [handleAirtableDeleteRequest]
  cases hs : r.splitwise_id <;> dsimp only <;> split_ifs <;> rfl

/-- Rows surviving a shared upsert: the target row is stamped imported with
the record's delete flag, every other row is untouched. -/
theorem upsertAirtable_mem {st : EngineState} {now : ℕ} {rec : ExpRow}
    {st2 : EngineState} {evs : List Ev} {out : ExpRow}
    (h : upsertAirtableExpense st now rec = .ok (st2, evs, out)) :
    ∀ x ∈ st2.airtable,
      (x.id = rec.id → x.imported = true ∧ x.delete = rec.delete) ∧
      (x.id ≠ rec.id → x ∈ st.airtable) := by
  obtain ⟨b, hp, hsw, hst, hevs⟩ := upsertAirtableExpense_ok h
  obtain ⟨hid, him, hosw, hdel⟩ := prepare_spec hp
  subst hst
  intro x hx
  simp only [updateAirtableRows, List.mem_map] at hx
  obtain ⟨y, hy, hxy⟩ := hx
  by_cases hyid : y.id = rec.id
  · rw [if_pos (by simp [hyid])] at hxy
    subst hxy
    refine ⟨fun _ => ⟨him, hdel⟩, fun hne => absurd hyid hne⟩
  · rw [if_neg (by simp [hyid])] at hxy
    subst hxy
    exact ⟨fun heq => absurd heq hyid, fun _ => hy⟩

/-- Inversion for a mapped upsert call. -/
theorem map_upsert_ok {stA : EngineState} {now : ℕ} {recB : ExpRow}
    {f : EngineState × List Ev × ExpRow → EngineState × List Ev}
    {st2 : EngineState} {evs : List Ev}
    (h : (upsertAirtableExpense stA now recB).map f = .ok (st2, evs)) :
    ∃ st3 evs3 out,
      upsertAirtableExpense stA now recB = .ok (st3, evs3, out) ∧
      f (st3, evs3, out) = (st2, evs) := by
  cases hup : upsertAirtableExpense stA now recB with
  | error e => rw [hup] at h; cases h
  | ok p =>
    rw [hup] at h
    obtain ⟨st3, evs3, out⟩ := p
    exact ⟨st3, evs3, out, rfl, Except.ok.inj h⟩

/-- Effect of processing one dirty row on the spreadsheet: the row's id is
deleted or left imported and not flagged for deletion; all other rows are
untouched. -/
theorem processRow_mem (newSw : ℤ → ℚ → String → SwRecord)
    {st : EngineState} {now : ℕ} {r : ExpRow} {st2 : EngineState}
    {evs : List Ev}
    (h : processAirtableExpense newSw st now r = .ok (st2, evs)) :
    ∀ x ∈ st2.airtable,
      (x.id = r.id → x.imported = true ∧ x.delete = false) ∧
      (x.id ≠ r.id → x ∈ st.airtable) := by
  unfold processAirtableExpense at h
  by_cases hdel : r.delete = true
  · rw [if_pos hdel] at h
    have hst2 : (handleAirtableDeleteRequest st r).1 = st2 :=
      congrArg Prod.fst (Except.ok.inj h)
    intro x hx
    rw [← hst2, handleDelete_airtable] at hx
    have hm := List.mem_filter.mp hx
    have hne : x.id ≠ r.id := by simpa using hm.2
    exact ⟨fun heq => absurd heq hne, fun _ => hm.1⟩
  · rw [if_neg hdel] at h
    have hdelf : r.delete = false := by simpa using hdel
    by_cases hsw : r.splitwise = true
    · rw [if_pos hsw] at h
      unfold handleAirtableSplitwiseRequest at h
      rcases hsid : r.splitwise_id with _ | sid
      · rw [hsid] at h
        dsimp only at h
        obtain ⟨st3, evs3, out, hup, hfeq⟩ := map_upsert_ok h
        have hst : st3 = st2 := congrArg Prod.fst hfeq
        subst hst
        intro x hx
        have hm := upsertAirtable_mem hup x hx
        refine ⟨fun heq => ?_, fun hne => hm.2 hne⟩
        have h2 : x.imported = true ∧ x.delete = r.delete := hm.1 heq
        exact ⟨h2.1, hdelf ▸ h2.2⟩
      · rw [hsid] at h
        dsimp only at h
        by_cases hany : (st.dbSplitwise.any fun q => q.id == sid) = true
        · rw [if_pos hany] at h
          obtain ⟨st3, evs3, out, hup, hfeq⟩ := map_upsert_ok h
          have hst : st3 = st2 := congrArg Prod.fst hfeq
          subst hst
          intro x hx
          have hm := upsertAirtable_mem hup x hx
          refine ⟨fun heq => ?_, fun hne => hm.2 hne⟩
          have h2 : x.imported = true ∧ x.delete = r.delete := hm.1 heq
          exact ⟨h2.1, hdelf ▸ h2.2⟩
        · rw [if_neg hany] at h
          obtain ⟨st3, evs3, out, hup, hfeq⟩ := map_upsert_ok h
          have hst : st3 = st2 := congrArg Prod.fst hfeq
          subst hst
          intro x hx
          have hm := upsertAirtable_mem hup x hx
          refine ⟨fun heq => ?_, fun hne => hm.2 hne⟩
          have h2 : x.imported = true ∧ x.delete = r.delete := hm.1 heq
          exact ⟨h2.1, hdelf ▸ h2.2⟩
    · rw [if_neg hsw] at h
      rcases hsid : r.splitwise_id with _ | sid
      · rw [hsid] at h
        dsimp only at h
        obtain ⟨st3, evs3, out, hup, hfeq⟩ := map_upsert_ok h
        have hst : st3 = st2 := congrArg Prod.fst hfeq
        subst hst
        intro x hx
        have hm := upsertAirtable_mem hup x hx
        refine ⟨fun heq => ?_, fun hne => hm.2 hne⟩
        have h2 : x.imported = true ∧ x.delete = r.delete := hm.1 heq
        exact ⟨h2.1, hdelf ▸ h2.2⟩
      · rw [hsid] at h
        dsimp only at h
        by_cases hany : (st.dbSplitwise.any fun q => q.id == sid) = true
        · rw [if_pos hany] at h
          obtain ⟨st3, evs3, out, hup, hfeq⟩ := map_upsert_ok h
          have hst : st3 = st2 := congrArg Prod.fst hfeq
          subst hst
          intro x hx
          have hm := upsertAirtable_mem hup x hx
          refine ⟨fun heq => ?_, fun hne => hm.2 hne⟩
          have h2 : x.imported = true ∧ x.delete = r.delete := hm.1 heq
          exact ⟨h2.1, hdelf ▸ h2.2⟩
        · rw [if_neg hany] at h
          obtain ⟨st3, evs3, out, hup, hfeq⟩ := map_upsert_ok h
          have hst : st3 = st2 := congrArg Prod.fst hfeq
          subst hst
          intro x hx
          have hm := upsertAirtable_mem hup x hx
          refine ⟨fun heq => ?_, fun hne => hm.2 hne⟩
          have h2 : x.imported = true ∧ x.delete = r.delete := hm.1 heq
          exact ⟨h2.1, hdelf ▸ h2.2⟩

/-- After a successful pass over the work list, every spreadsheet row whose
id was in the work list is imported and not deletable, and rows that were
already clean stay clean. -/
theorem processAll_clean (newSw : ℤ → ℚ → String → SwRecord) (now : ℕ)
    (work : List ExpRow) :
    ∀ (st : EngineState) (acc : List Ev) (st2 : EngineState) (evs : List Ev),
      processAll newSw now st work acc = .ok (st2, evs) →
      (∀ x ∈ st.airtable, (x.imported = true ∧ x.delete = false) ∨
        ∃ r ∈ work, r.id = x.id) →
      ∀ x ∈ st2.airtable, x.imported = true ∧ x.delete = false := by
  induction work with
  | nil =>
    intro st acc st2 evs h hinv
    cases h
    intro x hx
    rcases hinv x hx with h1 | ⟨r, hr, -⟩
    · exact h1
    · cases hr
  | cons r rest ih =>
    intro st acc st2 evs h hinv
    rw [processAll] at h
    cases hpr : processAirtableExpense newSw st now r with
    | error e => rw [hpr] at h; cases h
    | ok p =>
      rw [hpr] at h
      obtain ⟨st3, evs3⟩ := p
      refine ih st3 (acc ++ evs3) st2 evs h ?_
      intro x hx
      have hm := processRow_mem newSw hpr x hx
      by_cases hxid : x.id = r.id
      · exact Or.inl (hm.1 hxid)
      · rcases hinv x (hm.2 hxid) with h1 | ⟨r2, hr2, hid2⟩
        · exact Or.inl h1
        · rcases List.mem_cons.mp hr2 with rfl | hr2
          · exact absurd hid2 (fun he => hxid he.symm)
          · exact Or.inr ⟨r2, hr2, hid2⟩

/-- C4: `syncLedgerDeltas` is idempotent — after a successful pass every
previously dirty spreadsheet row is deleted or re-written with
`imported = true` and `delete = false`, so the dirty-set query selects
nothing and a second pass with no intervening external changes performs zero
writes and leaves the state unchanged. -/
theorem claim_C4 (newSw : ℤ → ℚ → String → SwRecord) (st : EngineState)
    (now now2 : ℕ) (st1 : EngineState) (evs : List Ev) (n : ℕ)
    (h : refreshAirtableExpensesData newSw st now = .ok (st1, evs, n)) :
    refreshAirtableExpensesData newSw st1 now2 = .ok (st1, [], 0) := by
  rw [refreshAirtableExpensesData] at h
  cases hpa : processAll newSw now st (dirtyRows st.airtable) [] with
  | error e => rw [hpa] at h; cases h
  | ok p =>
    rw [hpa] at h
    obtain ⟨stA, evsA⟩ := p
    cases h
    have hclean : ∀ x ∈ stA.airtable, x.imported = true ∧ x.delete = false := by
      refine processAll_clean newSw now (dirtyRows st.airtable) st [] stA
        evsA hpa ?_
      intro x hx
      by_cases hc : x.imported = true ∧ x.delete = false
      · exact Or.inl hc
      · refine Or.inr ⟨x, ?_, rfl⟩
        rw [dirtyRows, List.mem_filter]
        refine ⟨hx, ?_⟩
        by_cases h1 : x.imported = true
        · by_cases h2 : x.delete = true
          · simp [h2]
          · exact absurd ⟨h1, by simpa using h2⟩ hc
        · have h1f : x.imported = false := by simpa using h1
          simp [h1f]
    have hdirty : dirtyRows stA.airtable = [] := by
      rw [dirtyRows]
      refine List.filter_eq_nil_iff.mpr ?_
      intro x hx
      have := hclean x hx
      simp [this.1, this.2]
    rw [refreshAirtableExpensesData, hdirty]
    rfl

/-- A dirty spreadsheet row awaiting plain import. -/
def dirtySeedRow : ExpRow :=
  { id := "w1"
    amount := 25
    transaction := "Coffee - Shop"
    category := "Food"
    date := "2021-03-01"
    account := some "chk1"
    account_name := some "Main Checking"
    imported := false
    imported_at := none
    splitwise := false
    splitwise_id := none
    delete := false
    uuid := none
    created_at := some 2 }

/-- A store state with one dirty row. -/
def c4State : EngineState := ⟨[dirtySeedRow], [], [], stdAccounts, 0, 0⟩

/-- An abstract bill service returning a two-way split. -/
def constSw : ℤ → ℚ → String → SwRecord :=
  fun i c d => ⟨i, c, c, "", d, false, false⟩

/-- C4 witness: a first pass importing one dirty row, after which the second
pass is a no-op. -/
theorem claim_C4_witness :
    ∃ st1 evs n,
      refreshAirtableExpensesData constSw c4State 0 = .ok (st1, evs, n) ∧
      refreshAirtableExpensesData constSw st1 1 = .ok (st1, [], 0) :=
  ⟨_, _, _, rfl, claim_C4 constSw c4State 0 1 _ _ _ rfl⟩

end Engine

end Adjuftments
